import Mathlib

/-!
Shallow embedding of the NCV7240 driver (`src/ncv7240.py`), an 8-channel
low-side/relay driver controlled over SPI.  The driver keeps a 2-byte
shadow register `reg` (a Python `bytearray(2)`, so each entry is in
`0..255`), packs a 2-bit mode per channel into it, and pushes it over the
bus; status reads exchange the shadow for a 2-byte status word and decode
2-bit fields from it.

The SPI transport (the `spi.Spi` base class) is external to the repository;
it is modelled as a `Transport` collaborator whose transfer primitive
either succeeds (for an exchange, answering with fixed response bytes) or
raises an error.  Bus activity is recorded as a list of `SpiEv` events so
that lock/select bracketing can be stated.
-/

namespace NCV7240

/-- Mode code `CH_STANDBY = 0b00`. -/
def CH_STANDBY : Nat := 0b00
/-- Mode code `CH_INPUT = 0b01`. -/
def CH_INPUT : Nat := 0b01
/-- Mode code `CH_ON = 0b10`. -/
def CH_ON : Nat := 0b10
/-- Mode code `CH_OFF = 0b11`. -/
def CH_OFF : Nat := 0b11
/-- Status code `CH_OPEN = 0b10`. -/
def CH_OPEN : Nat := 0b10
/-- Status code `CH_FAULT = 0b01`. -/
def CH_FAULT : Nat := 0b01
/-- `_CH_MASK = 0b11`. -/
def CH_MASK : Nat := 0b11
/-- `_ALL_MASK = 0b01010101`. -/
def ALL_MASK : Nat := 0b01010101

/-- The 2-byte shadow register `self.reg` (`bytearray(2)`): `reg0` is
`self.reg[0]`, `reg1` is `self.reg[1]`. -/
structure Reg where
  reg0 : Nat
  reg1 : Nat
deriving DecidableEq, Repr

/-- The `bytearray` invariant: each entry of `self.reg` is a byte. -/
def ValidReg (r : Reg) : Prop := r.reg0 < 256 ∧ r.reg1 < 256

/-- `NCV7240._update(self, channel, mode)`:
`channel *= 2; if channel < 8: reg[1] = (reg[1] & ~(_CH_MASK << channel)) | (mode << channel)`
else the same on `reg[0]` with `channel -= 8`.  The register entries are
bytearray bytes (`< 256`) and the shifted mask is `< 256`, so Python's
`b & ~mask` coincides with `b &&& (255 ^^^ mask)` (`~mask` differs from
`255 ^^^ mask` only at bit positions `≥ 8`, which `b` does not have). -/
def update (r : Reg) (channel mode : Nat) : Reg :=
  let channel := channel * 2
  if channel < 8 then
    { r with reg1 := (r.reg1 &&& (255 ^^^ (CH_MASK <<< channel))) ||| (mode <<< channel) }
  else
    let channel := channel - 8
    { r with reg0 := (r.reg0 &&& (255 ^^^ (CH_MASK <<< channel))) ||| (mode <<< channel) }

/-- Decoding the 2-bit field of `channel` from a 2-byte word: the bit
position used by `_update` and `getChannel` (offset `channel*2` in byte 1
for channels 0-3, offset `channel*2 - 8` in byte 0 for channels 4-7). -/
def decodeCh (r : Reg) (channel : Nat) : Nat :=
  let channel := channel * 2
  if channel < 8 then
    (r.reg1 >>> channel) &&& CH_MASK
  else
    (r.reg0 >>> (channel - 8)) &&& CH_MASK

/-- Byte-level encode used by `_update` on the selected byte. -/
def encB (b mode off : Nat) : Nat := (b &&& (255 ^^^ (CH_MASK <<< off))) ||| (mode <<< off)

/-- Byte-level decode used by `getChannel` on the selected byte. -/
def decB (b off : Nat) : Nat := (b >>> off) &&& CH_MASK

set_option maxRecDepth 100000 in
theorem encB_decB : ∀ b < 256, ∀ m < 4, ∀ i < 4, ∀ j < 4,
    decB (encB b m (i * 2)) (j * 2) = if i = j then m else decB b (j * 2) := by decide

set_option maxRecDepth 100000 in
theorem encB_lt : ∀ b < 256, ∀ m < 4, ∀ i < 4, encB b m (i * 2) < 256 := by decide

theorem decB_lt (b off : Nat) : decB b off < 4 :=
  Nat.lt_succ_of_le (Nat.and_le_right)

/-- One call to an SPI primitive of the `spi.Spi` base class, as observed
by the transport.  `writeEv`/`exchangeEv` record the 2 bytes transmitted
(`self.reg`, the shadow). -/
inductive SpiEv where
  | lockEv
  | selectEv
  | writeEv (reg0 reg1 : Nat)
  | exchangeEv (reg0 reg1 : Nat)
  | unselectEv
  | doneEv
  | unlockEv
deriving DecidableEq, BEq, Repr

/-- The external SPI transport: the transfer primitive (`self.write` /
`self.exchange`) either raises `e` (when `transferFail = some e`) or
succeeds; a successful `exchange` answers with the bytes `resp`.  The
bracketing primitives (`lock`, `select`, `unselect`, `done`, `unlock`)
succeed. -/
structure Transport (ε : Type) where
  transferFail : Option ε
  resp : Reg

/-- `NCV7240._write(self)`: inside `try`, `lock(); select(); write(self.reg)`;
an exception from the transfer is captured in `ex`; then unconditionally
`unselect(); done(); unlock()`; finally `ex` is re-raised if present.
Returns the sequence of transport calls and the re-raised error, if any. -/
def write {ε : Type} (t : Transport ε) (reg : Reg) : List SpiEv × Option ε :=
  ([SpiEv.lockEv, SpiEv.selectEv, SpiEv.writeEv reg.reg0 reg.reg1,
    SpiEv.unselectEv, SpiEv.doneEv, SpiEv.unlockEv],
   t.transferFail)

/-- `NCV7240._exchange(self)`: same bracketing as `_write` but the transfer
is `stat = self.exchange(self.reg)`; after the cleanup calls the captured
exception is re-raised, else `stat` is returned. -/
def exchange {ε : Type} (t : Transport ε) (reg : Reg) : List SpiEv × Except ε Reg :=
  let evs := [SpiEv.lockEv, SpiEv.selectEv, SpiEv.exchangeEv reg.reg0 reg.reg1,
              SpiEv.unselectEv, SpiEv.doneEv, SpiEv.unlockEv]
  match t.transferFail with
  | some e => (evs, Except.error e)
  | none => (evs, Except.ok t.resp)

/-- `NCV7240.setChannel(self, channel, mode)`:
`self._update(channel, mode); self._write()`.  Result: new shadow, bus
events, re-raised error if the write failed. -/
def setChannel {ε : Type} (t : Transport ε) (r : Reg) (channel mode : Nat) :
    Reg × List SpiEv × Option ε :=
  let r := update r channel mode
  let w := write t r
  (r, w.1, w.2)

/-- The `while` loop of the list/tuple branch of `setAllChannels`:
`i = 0; while i < len(mode): if mode[i] is not None: self._update(i, mode[i]); i += 1`. -/
def setAllLoop (r : Reg) (i : Nat) : List (Option Nat) → Reg
  | [] => r
  | m :: rest =>
    match m with
    | some v => setAllLoop (update r i v) (i + 1) rest
    | none => setAllLoop r (i + 1) rest

/-- `NCV7240.setAllChannels(self, mode)`, branch where `mode` is a list or
tuple: run the update loop, then `self._write()`. -/
def setAllChannelsSeq {ε : Type} (t : Transport ε) (r : Reg)
    (modes : List (Option Nat)) : Reg × List SpiEv × Option ε :=
  let r := setAllLoop r 0 modes
  let w := write t r
  (r, w.1, w.2)

/-- `NCV7240.setAllChannels(self, mode)`, branch where `mode` is a single
mode code: `reg[0] = mode * _ALL_MASK; reg[1] = mode * _ALL_MASK; self._write()`. -/
def setAllChannelsUniform {ε : Type} (t : Transport ε) (_r : Reg) (mode : Nat) :
    Reg × List SpiEv × Option ε :=
  let r : Reg := { reg0 := mode * ALL_MASK, reg1 := mode * ALL_MASK }
  let w := write t r
  (r, w.1, w.2)

/-- `NCV7240.getChannel(self, channel)`: `stat = self._exchange()`, then
`channel *= 2` and the 2-bit field is extracted from `stat[1]`
(`channel < 8`) or `stat[0]` (after `channel -= 8`).  The shadow is
returned unchanged alongside the events and the result. -/
def getChannel {ε : Type} (t : Transport ε) (r : Reg) (channel : Nat) :
    Reg × List SpiEv × Except ε Nat :=
  match exchange t r with
  | (evs, Except.error e) => (r, evs, Except.error e)
  | (evs, Except.ok stat) =>
    let channel := channel * 2
    if channel < 8 then
      (r, evs, Except.ok ((stat.reg1 >>> channel) &&& CH_MASK))
    else
      (r, evs, Except.ok ((stat.reg0 >>> (channel - 8)) &&& CH_MASK))

/-- `NCV7240.getAllChannels(self)`: one `_exchange`, then the 8-tuple
`((stat[1]>>0)&3, (stat[1]>>2)&3, (stat[1]>>4)&3, (stat[1]>>6)&3,
(stat[0]>>0)&3, (stat[0]>>2)&3, (stat[0]>>4)&3, (stat[0]>>6)&3)`. -/
def getAllChannels {ε : Type} (t : Transport ε) (r : Reg) :
    Reg × List SpiEv × Except ε (Nat × Nat × Nat × Nat × Nat × Nat × Nat × Nat) :=
  match exchange t r with
  | (evs, Except.error e) => (r, evs, Except.error e)
  | (evs, Except.ok stat) =>
    (r, evs, Except.ok (
      (stat.reg1 >>> 0) &&& CH_MASK,
      (stat.reg1 >>> 2) &&& CH_MASK,
      (stat.reg1 >>> 4) &&& CH_MASK,
      (stat.reg1 >>> 6) &&& CH_MASK,
      (stat.reg0 >>> 0) &&& CH_MASK,
      (stat.reg0 >>> 2) &&& CH_MASK,
      (stat.reg0 >>> 4) &&& CH_MASK,
      (stat.reg0 >>> 6) &&& CH_MASK))

/-- `NCV7240.isChannelOpen(self, channel)`:
`(self.getChannel(channel) & CH_OPEN) != 0`. -/
def isChannelOpen {ε : Type} (t : Transport ε) (r : Reg) (channel : Nat) :
    Reg × List SpiEv × Except ε Bool :=
  match getChannel t r channel with
  | (r, evs, Except.error e) => (r, evs, Except.error e)
  | (r, evs, Except.ok v) => (r, evs, Except.ok (v &&& CH_OPEN != 0))

/-- `NCV7240.isChannelFault(self, channel)`:
`(self.getChannel(channel) & CH_FAULT) != 0`. -/
def isChannelFault {ε : Type} (t : Transport ε) (r : Reg) (channel : Nat) :
    Reg × List SpiEv × Except ε Bool :=
  match getChannel t r channel with
  | (r, evs, Except.error e) => (r, evs, Except.error e)
  | (r, evs, Except.ok v) => (r, evs, Except.ok (v &&& CH_FAULT != 0))

/-- The shadow register at construction: `self.reg = bytearray(2)`. -/
def initReg : Reg := { reg0 := 0, reg1 := 0 }

/-- Lock/unlock and select/unselect calls are balanced: each is issued
exactly once in the event sequence of one transaction. -/
def Balanced (evs : List SpiEv) : Prop :=
  evs.count SpiEv.lockEv = 1 ∧ evs.count SpiEv.unlockEv = 1 ∧
  evs.count SpiEv.selectEv = 1 ∧ evs.count SpiEv.unselectEv = 1

theorem decodeCh_update_self (r : Reg) (c m : Nat) (hr : ValidReg r)
    (hc : c < 8) (hm : m < 4) :
    decodeCh (update r c m) c = m := by
  obtain ⟨h0, h1⟩ := hr
  by_cases hcl : c < 4
  · have hlt : c * 2 < 8 := by omega
    have h := encB_decB r.reg1 h1 m hm c hcl c hcl
    simp only [encB, decB, CH_MASK, if_pos rfl] at h
    simpa [update, decodeCh, hlt, CH_MASK] using h
  · have hlt : ¬ (c * 2 < 8) := by omega
    have e : c * 2 - 8 = (c - 4) * 2 := by omega
    have h := encB_decB r.reg0 h0 m hm (c - 4) (by omega) (c - 4) (by omega)
    simp only [encB, decB, CH_MASK, if_pos rfl] at h
    simpa [update, decodeCh, hlt, CH_MASK, e] using h

theorem decodeCh_update_other (r : Reg) (c c2 m : Nat) (hr : ValidReg r)
    (hc : c < 8) (hc2 : c2 < 8) (hm : m < 4) (hne : c ≠ c2) :
    decodeCh (update r c m) c2 = decodeCh r c2 := by
  obtain ⟨h0, h1⟩ := hr
  by_cases hcl : c < 4 <;> by_cases hc2l : c2 < 4
  · have hlt : c * 2 < 8 := by omega
    have hlt2 : c2 * 2 < 8 := by omega
    have h := encB_decB r.reg1 h1 m hm c hcl c2 hc2l
    simp only [encB, decB, CH_MASK, if_neg hne] at h
    simpa [update, decodeCh, hlt, hlt2, CH_MASK] using h
  · -- update touches the low byte (reg1), decode reads the high byte (reg0)
    have hlt : c * 2 < 8 := by omega
    have hlt2 : ¬ (c2 * 2 < 8) := by omega
    simp [update, decodeCh, hlt, hlt2]
  · -- update touches the high byte (reg0), decode reads the low byte (reg1)
    have hlt : ¬ (c * 2 < 8) := by omega
    have hlt2 : c2 * 2 < 8 := by omega
    simp [update, decodeCh, hlt, hlt2]
  · have hlt : ¬ (c * 2 < 8) := by omega
    have hlt2 : ¬ (c2 * 2 < 8) := by omega
    have e : c * 2 - 8 = (c - 4) * 2 := by omega
    have e2 : c2 * 2 - 8 = (c2 - 4) * 2 := by omega
    have h := encB_decB r.reg0 h0 m hm (c - 4) (by omega) (c2 - 4) (by omega)
    simp only [encB, decB, CH_MASK, if_neg (show ¬ (c - 4 = c2 - 4) by omega)] at h
    simpa [update, decodeCh, hlt, hlt2, CH_MASK, e, e2] using h

theorem update_valid (r : Reg) (c m : Nat) (hr : ValidReg r)
    (hc : c < 8) (hm : m < 4) : ValidReg (update r c m) := by
  obtain ⟨h0, h1⟩ := hr
  by_cases hcl : c < 4
  · have hlt : c * 2 < 8 := by omega
    refine ⟨by simpa [update, hlt] using h0, ?_⟩
    have h := encB_lt r.reg1 h1 m hm c hcl
    simpa [update, encB, hlt, CH_MASK] using h
  · have hlt : ¬ (c * 2 < 8) := by omega
    have e : c * 2 - 8 = (c - 4) * 2 := by omega
    refine ⟨?_, by simpa [update, hlt] using h1⟩
    have h := encB_lt r.reg0 h0 m hm (c - 4) (by omega)
    simpa [update, encB, hlt, CH_MASK, e] using h

theorem initReg_valid : ValidReg initReg := by
  unfold ValidReg initReg
  exact ⟨by decide, by decide⟩

theorem balanced_write_trace (a b : Nat) :
    Balanced [SpiEv.lockEv, SpiEv.selectEv, SpiEv.writeEv a b,
              SpiEv.unselectEv, SpiEv.doneEv, SpiEv.unlockEv] := by
  unfold Balanced
  exact ⟨rfl, rfl, rfl, rfl⟩

theorem balanced_exchange_trace (a b : Nat) :
    Balanced [SpiEv.lockEv, SpiEv.selectEv, SpiEv.exchangeEv a b,
              SpiEv.unselectEv, SpiEv.doneEv, SpiEv.unlockEv] := by
  unfold Balanced
  exact ⟨rfl, rfl, rfl, rfl⟩

/-- C1: for every channel `c` in `0..7` and mode `m` in `0..3`,
`setChannel(c, m)` leaves the shadow with `m` decoded at `c`'s 2-bit
position (offset `c*2` in byte 1 for `c < 4`, offset `(c-4)*2` in byte 0
for `c ≥ 4`, which is what `decodeCh` reads), while every other channel's
2-bit field is unchanged. -/
theorem setChannel_sets_target_and_preserves_others {ε : Type} (t : Transport ε)
    (r : Reg) (c m : Nat) (hr : ValidReg r) (hc : c < 8) (hm : m < 4) :
    decodeCh (setChannel t r c m).1 c = m ∧
    ∀ c2, c2 < 8 → c2 ≠ c → decodeCh (setChannel t r c m).1 c2 = decodeCh r c2 := by
  constructor
  · simpa [setChannel] using decodeCh_update_self r c m hr hc hm
  · intro c2 h2 hne
    simpa [setChannel] using
      decodeCh_update_other r c c2 m hr hc h2 hm (fun h => hne h.symm)

theorem setChannel_sets_target_and_preserves_others_witness :
    ValidReg initReg ∧ (0 : Nat) < 8 ∧ (2 : Nat) < 4 ∧
    decodeCh (setChannel (Transport.mk none initReg : Transport Unit) initReg 0 2).1 0 = 2 :=
  ⟨initReg_valid, by decide, by decide,
   (setChannel_sets_target_and_preserves_others (Transport.mk none initReg : Transport Unit)
     initReg 0 2 initReg_valid (by decide) (by decide)).1⟩

/-- C2: encoding a 2-bit value `v` into the shadow at channel `c` with
`_update` and then decoding channel `c` from the resulting bytes yields
`v` back (encode followed by decode is the identity on the field). -/
theorem encode_then_decode_roundtrip (r : Reg) (c v : Nat) (hr : ValidReg r)
    (hc : c < 8) (hv : v < 4) :
    decodeCh (update r c v) c = v :=
  decodeCh_update_self r c v hr hc hv

theorem encode_then_decode_roundtrip_witness :
    ValidReg initReg ∧ (5 : Nat) < 8 ∧ (3 : Nat) < 4 ∧
    decodeCh (update initReg 5 3) 5 = 3 :=
  ⟨initReg_valid, by decide, by decide,
   encode_then_decode_roundtrip initReg 5 3 initReg_valid (by decide) (by decide)⟩

/-- C3: the uniform branch of `setAllChannels(m)` sets both shadow bytes
to `m * 0b01010101`, so every channel 0-7 decodes to `m`; with
`m = CH_STANDBY` the shadow is reset to `[0, 0]` whatever it was before. -/
theorem setAllChannelsUniform_spec {ε : Type} (t : Transport ε) (r : Reg)
    (m : Nat) (hm : m < 4) :
    (setAllChannelsUniform t r m).1.reg0 = m * 0b01010101 ∧
    (setAllChannelsUniform t r m).1.reg1 = m * 0b01010101 ∧
    (∀ c, c < 8 → decodeCh (setAllChannelsUniform t r m).1 c = m) ∧
    (setAllChannelsUniform t r CH_STANDBY).1 = initReg := by
  refine ⟨rfl, rfl, ?_, rfl⟩
  intro c hc
  have h : ∀ m2 < 4, ∀ c2 < 8,
      decodeCh { reg0 := m2 * ALL_MASK, reg1 := m2 * ALL_MASK } c2 = m2 := by decide
  exact h m hm c hc

theorem setAllChannelsUniform_spec_witness :
    (2 : Nat) < 4 ∧
    (setAllChannelsUniform (Transport.mk none initReg : Transport Unit)
      (Reg.mk 7 99) 2).1.reg0 = 2 * 0b01010101 :=
  ⟨by decide,
   (setAllChannelsUniform_spec (Transport.mk none initReg : Transport Unit)
     (Reg.mk 7 99) 2 (by decide)).1⟩

theorem setAllLoop_valid (modes : List (Option Nat)) : ∀ (r : Reg) (k : Nat),
    ValidReg r → k + modes.length ≤ 8 → (∀ v, some v ∈ modes → v < 4) →
    ValidReg (setAllLoop r k modes) := by
  induction modes with
  | nil => intro r k hr _ _; exact hr
  | cons m rest ih =>
    intro r k hr hk hm
    have hk8 : k < 8 := by simp only [List.length_cons] at hk; omega
    have hk1 : (k + 1) + rest.length ≤ 8 := by
      simp only [List.length_cons] at hk; omega
    have hmr : ∀ v, some v ∈ rest → v < 4 :=
      fun v hv => hm v (List.mem_cons_of_mem _ hv)
    cases m with
    | none => exact ih r (k + 1) hr hk1 hmr
    | some v =>
      have hv : v < 4 := hm v (List.mem_cons_self _ _)
      exact ih (update r k v) (k + 1) (update_valid r k v hr hk8 hv) hk1 hmr

theorem setAllLoop_decode (modes : List (Option Nat)) : ∀ (r : Reg) (k c : Nat),
    ValidReg r → k + modes.length ≤ 8 → c < 8 → (∀ v, some v ∈ modes → v < 4) →
    decodeCh (setAllLoop r k modes) c =
      if k ≤ c then (modes.getD (c - k) none).getD (decodeCh r c)
      else decodeCh r c := by
  induction modes with
  | nil =>
    intro r k c hr hk hc hm
    simp [setAllLoop, List.getD]
  | cons m rest ih =>
    intro r k c hr hk hc hm
    have hk8 : k < 8 := by simp only [List.length_cons] at hk; omega
    have hk1 : (k + 1) + rest.length ≤ 8 := by
      simp only [List.length_cons] at hk; omega
    have hmr : ∀ v, some v ∈ rest → v < 4 :=
      fun v hv => hm v (List.mem_cons_of_mem _ hv)
    cases m with
    | none =>
      have step : setAllLoop r k (none :: rest) = setAllLoop r (k + 1) rest := rfl
      rw [step, ih r (k + 1) c hr hk1 hc hmr]
      rcases Nat.lt_trichotomy c k with h | h | h
      · rw [if_neg (by omega), if_neg (by omega)]
      · subst h
        rw [if_neg (by omega), if_pos (by omega)]
        simp
      · rw [if_pos (by omega), if_pos (by omega)]
        have e : c - k = (c - (k + 1)) + 1 := by omega
        rw [e, List.getD_cons_succ]
    | some v =>
      have hv : v < 4 := hm v (List.mem_cons_self _ _)
      have hval : ValidReg (update r k v) := update_valid r k v hr hk8 hv
      have step : setAllLoop r k (some v :: rest) =
          setAllLoop (update r k v) (k + 1) rest := rfl
      rw [step, ih (update r k v) (k + 1) c hval hk1 hc hmr]
      rcases Nat.lt_trichotomy c k with h | h | h
      · rw [if_neg (by omega), if_neg (by omega)]
        exact decodeCh_update_other r k c v hr hk8 hc hv (by omega)
      · subst h
        rw [if_neg (by omega), if_pos (by omega)]
        simp only [Nat.sub_self, List.getD_cons_zero, Option.getD_some]
        exact decodeCh_update_self r c v hr hk8 hv
      · rw [if_pos (by omega), if_pos (by omega)]
        have e : c - k = (c - (k + 1)) + 1 := by omega
        rw [e, List.getD_cons_succ,
          decodeCh_update_other r k c v hr hk8 hc hv (by omega)]

theorem setAllLoop_none (modes : List (Option Nat)) : ∀ (r : Reg) (k : Nat),
    (∀ x ∈ modes, x = none) → setAllLoop r k modes = r := by
  induction modes with
  | nil => intro r k _; rfl
  | cons m rest ih =>
    intro r k hall
    have hm := hall m (List.mem_cons_self _ _)
    subst hm
    exact ih r (k + 1) (fun x hx => hall x (List.mem_cons_of_mem _ hx))

/-- C4: the list/tuple branch of `setAllChannels` with a sequence of at
most 8 optional modes sets every listed channel with a concrete mode to
exactly that mode, leaves every `None` entry's channel and every channel
beyond the end of the sequence at its prior 2-bit value, and then issues
a single write transaction carrying the fully updated shadow. -/
theorem setAllChannelsSeq_spec {ε : Type} (t : Transport ε) (r : Reg)
    (modes : List (Option Nat)) (hr : ValidReg r) (hlen : modes.length ≤ 8)
    (hm : ∀ v, some v ∈ modes → v < 4) :
    (∀ i m, (hi : i < modes.length) → modes.get ⟨i, hi⟩ = some m →
      decodeCh (setAllChannelsSeq t r modes).1 i = m) ∧
    (∀ i, (hi : i < modes.length) → modes.get ⟨i, hi⟩ = none →
      decodeCh (setAllChannelsSeq t r modes).1 i = decodeCh r i) ∧
    (∀ c, modes.length ≤ c → c < 8 →
      decodeCh (setAllChannelsSeq t r modes).1 c = decodeCh r c) ∧
    (setAllChannelsSeq t r modes).2.1 =
      [SpiEv.lockEv, SpiEv.selectEv,
       SpiEv.writeEv (setAllChannelsSeq t r modes).1.reg0
         (setAllChannelsSeq t r modes).1.reg1,
       SpiEv.unselectEv, SpiEv.doneEv, SpiEv.unlockEv] := by
  have hfst : (setAllChannelsSeq t r modes).1 = setAllLoop r 0 modes := rfl
  have hdec : ∀ c, c < 8 → decodeCh (setAllLoop r 0 modes) c =
      (modes.getD c none).getD (decodeCh r c) := by
    intro c hc
    rw [setAllLoop_decode modes r 0 c hr (by omega) hc hm, if_pos (Nat.zero_le c)]
    simp
  refine ⟨?_, ?_, ?_, rfl⟩
  · intro i m hi hget
    have hi8 : i < 8 := by omega
    rw [hfst, hdec i hi8, List.getD_eq_getElem?_getD, List.getElem?_eq_getElem hi]
    simp only [Option.getD_some]
    have : modes[i] = some m := by simpa [List.get_eq_getElem] using hget
    simp [this]
  · intro i hi hget
    have hi8 : i < 8 := by omega
    rw [hfst, hdec i hi8, List.getD_eq_getElem?_getD, List.getElem?_eq_getElem hi]
    simp only [Option.getD_some]
    have : modes[i] = none := by simpa [List.get_eq_getElem] using hget
    simp [this]
  · intro c hcl hc8
    rw [hfst, hdec c hc8, List.getD_eq_getElem?_getD, List.getElem?_eq_none hcl]
    simp

theorem setAllChannelsSeq_spec_witness :
    ValidReg initReg ∧
    ([some 2, none, some 3] : List (Option Nat)).length ≤ 8 ∧
    decodeCh (setAllChannelsSeq (Transport.mk none initReg : Transport Unit)
      initReg [some 2, none, some 3]).1 0 = 2 :=
  ⟨initReg_valid, by decide,
   (setAllChannelsSeq_spec (Transport.mk none initReg : Transport Unit) initReg
       [some 2, none, some 3] initReg_valid (by decide)
       (by intro v hv; simp at hv; omega)).1
     0 2 (by decide) rfl⟩

/-- C10: the list branch of `setAllChannels` applied to an empty sequence
or to a sequence of only `None` entries leaves the shadow unchanged and
still performs exactly one write transaction transmitting the unchanged
shadow. -/
theorem setAllChannelsSeq_allnone_noop {ε : Type} (t : Transport ε) (r : Reg)
    (modes : List (Option Nat)) (hall : ∀ x ∈ modes, x = none) :
    (setAllChannelsSeq t r modes).1 = r ∧
    (setAllChannelsSeq t r modes).2.1 =
      [SpiEv.lockEv, SpiEv.selectEv, SpiEv.writeEv r.reg0 r.reg1,
       SpiEv.unselectEv, SpiEv.doneEv, SpiEv.unlockEv] := by
  have h := setAllLoop_none modes r 0 hall
  constructor
  · simpa [setAllChannelsSeq] using h
  · simp [setAllChannelsSeq, write, h]

theorem setAllChannelsSeq_allnone_noop_witness :
    (∀ x ∈ ([none, none] : List (Option Nat)), x = none) ∧
    (setAllChannelsSeq (Transport.mk none initReg : Transport Unit)
      (Reg.mk 5 7) [none, none]).1 = Reg.mk 5 7 :=
  ⟨by decide,
   (setAllChannelsSeq_allnone_noop (Transport.mk none initReg : Transport Unit)
     (Reg.mk 5 7) [none, none] (by decide)).1⟩

/-- C5 counterexample: in the concrete scenario (all-zero shadow,
`setChannel(0, CH_ON)`, `setChannel(7, CH_OFF)`, then `getAllChannels()`
with the mocked exchange answering `[0b01000000, 0b00000000]`) the
returned tuple is `(0,0,0,0,0,0,0,1)` — bit 6 of byte 0 is channel 7's
`CH_FAULT` bit — and not `(0,0,0,0,1,0,0,0)` as the claim states. -/
theorem getAllChannels_scenario_counterexample :
    (getAllChannels (Transport.mk none (Reg.mk 0b01000000 0b00000000) : Transport Unit)
        (setChannel (Transport.mk none (Reg.mk 0b01000000 0b00000000) : Transport Unit)
          (setChannel (Transport.mk none (Reg.mk 0b01000000 0b00000000) : Transport Unit)
            initReg 0 CH_ON).1 7 CH_OFF).1).2.2 =
      Except.ok (0, 0, 0, 0, 0, 0, 0, 1) ∧
    ((0, 0, 0, 0, 0, 0, 0, 1) : Nat × Nat × Nat × Nat × Nat × Nat × Nat × Nat) ≠
      (0, 0, 0, 0, 1, 0, 0, 0) :=
  ⟨rfl, by simp⟩

/-- C5 (amended): from the freshly constructed all-zero shadow,
`setChannel(0, CH_ON)` makes byte 1 equal `0b00000010`; then
`setChannel(7, CH_OFF)` makes byte 0 equal `0b11000000` with byte 1
unchanged; then `getAllChannels()` with a mocked exchange returning
`[0b01000000, 0b00000000]` returns `(0,0,0,0,0,0,0,1)`, mapping channel
7's `CH_FAULT` bit, all others 0. -/
theorem getAllChannels_scenario_spec :
    let t : Transport Unit := Transport.mk none (Reg.mk 0b01000000 0b00000000)
    let s1 := (setChannel t initReg 0 CH_ON).1
    let s2 := (setChannel t s1 7 CH_OFF).1
    s1.reg1 = 0b00000010 ∧ s2.reg0 = 0b11000000 ∧ s2.reg1 = 0b00000010 ∧
    (getAllChannels t s2).2.2 = Except.ok (0, 0, 0, 0, 0, 0, 0, 1) :=
  ⟨rfl, rfl, rfl, rfl⟩

/-- C6: `getChannel` and `getAllChannels` return the shadow register
bit-identical to its value before the call, whatever the transport does
(status reads never mutate the shadow). -/
theorem get_does_not_mutate_shadow {ε : Type} (t : Transport ε) (r : Reg) (c : Nat) :
    (getChannel t r c).1 = r ∧ (getAllChannels t r).1 = r := by
  refine ⟨?_, ?_⟩
  · cases h : t.transferFail with
    | some e => simp [getChannel, exchange, h]
    | none =>
      simp only [getChannel, exchange, h]
      split <;> rfl
  · cases h : t.transferFail <;> simp [getAllChannels, exchange, h]

/-- C7: with a transport whose transfer primitive raises `e`, each of
`setChannel`, both branches of `setAllChannels`, `getChannel` and
`getAllChannels` still issues lock/unlock and select/unselect exactly
once each (balanced bracketing, the release happening before the error
surfaces), and re-raises the original error `e` unchanged. -/
theorem bus_released_once_and_error_reraised {ε : Type} (t : Transport ε) (e : ε)
    (r : Reg) (c m mu : Nat) (modes : List (Option Nat))
    (hfail : t.transferFail = some e) :
    (Balanced (setChannel t r c m).2.1 ∧ (setChannel t r c m).2.2 = some e) ∧
    (Balanced (setAllChannelsSeq t r modes).2.1 ∧
      (setAllChannelsSeq t r modes).2.2 = some e) ∧
    (Balanced (setAllChannelsUniform t r mu).2.1 ∧
      (setAllChannelsUniform t r mu).2.2 = some e) ∧
    (Balanced (getChannel t r c).2.1 ∧ (getChannel t r c).2.2 = Except.error e) ∧
    (Balanced (getAllChannels t r).2.1 ∧ (getAllChannels t r).2.2 = Except.error e) := by
  refine ⟨⟨balanced_write_trace _ _, by simp [setChannel, write, hfail]⟩,
    ⟨balanced_write_trace _ _, by simp [setAllChannelsSeq, write, hfail]⟩,
    ⟨balanced_write_trace _ _, by simp [setAllChannelsUniform, write, hfail]⟩,
    ⟨?_, ?_⟩, ⟨?_, ?_⟩⟩
  · simp only [getChannel, exchange, hfail]
    exact balanced_exchange_trace _ _
  · simp [getChannel, exchange, hfail]
  · simp only [getAllChannels, exchange, hfail]
    exact balanced_exchange_trace _ _
  · simp [getAllChannels, exchange, hfail]

theorem bus_released_once_and_error_reraised_witness :
    (Transport.mk (some 7) initReg : Transport Nat).transferFail = some 7 ∧
    (setChannel (Transport.mk (some 7) initReg : Transport Nat) initReg 0 2).2.2 = some 7 :=
  ⟨rfl,
   (bus_released_once_and_error_reraised (Transport.mk (some 7) initReg : Transport Nat)
     7 initReg 0 2 1 [] rfl).1.2⟩

/-- C8: when the write transaction inside `setChannel(c, m)` fails, the
error is re-raised to the caller, yet the in-memory shadow has already
been updated by `_update` and decodes to `m` at channel `c` — the update
is not rolled back on the bus-failure path. -/
theorem setChannel_failure_shadow_already_mutated {ε : Type} (t : Transport ε)
    (e : ε) (r : Reg) (c m : Nat) (hr : ValidReg r) (hc : c < 8) (hm : m < 4)
    (hfail : t.transferFail = some e) :
    (setChannel t r c m).2.2 = some e ∧
    (setChannel t r c m).1 = update r c m ∧
    decodeCh (setChannel t r c m).1 c = m := by
  refine ⟨by simp [setChannel, write, hfail], rfl, ?_⟩
  simpa [setChannel] using decodeCh_update_self r c m hr hc hm

theorem setChannel_failure_shadow_already_mutated_witness :
    ValidReg initReg ∧ (0 : Nat) < 8 ∧ (2 : Nat) < 4 ∧
    (Transport.mk (some 7) initReg : Transport Nat).transferFail = some 7 ∧
    decodeCh (setChannel (Transport.mk (some 7) initReg : Transport Nat)
      initReg 0 2).1 0 = 2 :=
  ⟨initReg_valid, by decide, by decide, rfl,
   (setChannel_failure_shadow_already_mutated
     (Transport.mk (some 7) initReg : Transport Nat) 7 initReg 0 2
     initReg_valid (by decide) (by decide) rfl).2.2⟩

/-- C9: for every 2-byte status response, `getChannel(c)` returns exactly
the masked 2-bit field `decodeCh resp c`, which is always in `0..3`
(including `0b00` and `0b11`, not only `CH_OPEN` and `CH_FAULT`);
`getAllChannels()` returns the eight masked fields in channel order; and
on a response whose field is `0b11` both `isChannelOpen` and
`isChannelFault` answer `true` for the same read. -/
theorem status_codes_in_range (resp r : Reg) (c : Nat) (_hc : c < 8) :
    (getChannel (Transport.mk none resp : Transport Unit) r c).2.2 =
      Except.ok (decodeCh resp c) ∧
    decodeCh resp c < 4 ∧
    (getAllChannels (Transport.mk none resp : Transport Unit) r).2.2 =
      Except.ok (decodeCh resp 0, decodeCh resp 1, decodeCh resp 2, decodeCh resp 3,
                 decodeCh resp 4, decodeCh resp 5, decodeCh resp 6, decodeCh resp 7) ∧
    (isChannelOpen (Transport.mk none (Reg.mk 0 0b11) : Transport Unit)
      initReg 0).2.2 = Except.ok true ∧
    (isChannelFault (Transport.mk none (Reg.mk 0 0b11) : Transport Unit)
      initReg 0).2.2 = Except.ok true := by
  refine ⟨?_, ?_, rfl, rfl, rfl⟩
  · by_cases h : c * 2 < 8 <;> simp [getChannel, exchange, decodeCh, h]
  · by_cases h : c * 2 < 8 <;> simp only [decodeCh, h, if_true, if_false] <;>
      exact Nat.lt_succ_of_le Nat.and_le_right

theorem status_codes_in_range_witness :
    (6 : Nat) < 8 ∧
    decodeCh (Reg.mk 0b01000000 0) 6 < 4 :=
  ⟨by decide,
   (status_codes_in_range (Reg.mk 0b01000000 0) initReg 6 (by decide)).2.1⟩

end NCV7240
